import Mathlib

/-!
Verification development for the sgtimer-ble BLE shot-timer server
(`server.py`).  The parts of the program the claims are about are embedded
shallowly:

* byte payloads are `List Nat` (a Python `bytearray`); an out-of-range index
  (Python `IndexError`) is modelled by `Option`-failure (`none`);
* Python floats are modelled by exact rationals `ℚ`: the only arithmetic the
  program performs on shot times is division of a millisecond integer by
  1000 and subtraction, which the rationals represent exactly;
* the global dictionaries `session_state` / `last_session_state` are the
  structures `SessionState` / `Option SessionState`, and a `DeviceManager`
  instance keeps the per-device fields used by the claims;
* broadcast dictionaries become the record `Msg` (a field that the Python
  dict omits is kept at its default value);
* the BLE transport (`bleak`) is an oracle `BleEnv` saying which external
  calls succeed and what they return.
-/

/-! ## Byte-level decoding (`be_u16`, `be_u32`, `EVENT_TYPES`) -/

abbrev Bytes := List Nat

/-- `def be_u16(b, o): return (b[o] << 8) | b[o + 1]` (server.py:173).
Indexing out of range raises in Python; here it returns `none`. -/
def be_u16 (b : Bytes) (o : Nat) : Option Nat := do
  let x ← b[o]?
  let y ← b[o + 1]?
  pure ((x <<< 8) ||| y)

/-- `def be_u32(b, o)` (server.py:174), big-endian 32-bit read. -/
def be_u32 (b : Bytes) (o : Nat) : Option Nat := do
  let x0 ← b[o]?
  let x1 ← b[o + 1]?
  let x2 ← b[o + 2]?
  let x3 ← b[o + 3]?
  pure ((x0 <<< 24) ||| (x1 <<< 16) ||| (x2 <<< 8) ||| x3)

/-- `EVENT_TYPES.get(event_id, "UNKNOWN")` (server.py:48-55, 320). -/
def EVENT_TYPES (n : Nat) : String :=
  if n = 0 then "SESSION_STARTED"
  else if n = 1 then "SESSION_SUSPENDED"
  else if n = 2 then "SESSION_RESUMED"
  else if n = 3 then "SESSION_STOPPED"
  else if n = 4 then "SHOT_DETECTED"
  else if n = 5 then "SESSION_SET_BEGIN"
  else "UNKNOWN"

/-! ## Data model -/

/-- One element of `session_state["shots"]`: `{"num": shot_num, "time": shot_time}`. -/
structure Shot where
  num : Nat
  time : ℚ
  deriving Repr, DecidableEq

/-- The global `session_state` dict (server.py:124-132). -/
structure SessionState where
  active : Bool
  status : String
  shots : List Shot
  first_shot : ℚ
  best_split : ℚ
  total_time : ℚ
  sess_id : Option Nat
  deriving Repr, DecidableEq

/-- Initial value of `session_state` (server.py:124-132). -/
def init_session_state : SessionState :=
  { active := false, status := "STOPPED", shots := [], first_shot := 0,
    best_split := 0, total_time := 0, sess_id := none }

/-- One data row of the per-session CSV file.  The textual 3-decimal
formatting of `shot_time`/`split` is presentation only and is kept
structurally. -/
structure CsvRow where
  event : String
  shot_num : Nat
  shot_time : ℚ
  split : Option ℚ
  ts_device : Nat
  deriving Repr, DecidableEq

/-- A broadcast message (the dicts passed to `broadcast`).  A key absent
from the Python dict is modelled by the default value of its field. -/
structure Msg where
  type : String
  addr : String := ""
  name : String := ""
  model : String := ""
  api_version : String := ""
  status : String := ""
  message : String := ""
  sess_id : Option Nat := none
  num : Option Nat := none
  time : Option ℚ := none
  split : Option ℚ := none
  state : Option SessionState := none
  deriving Repr, DecidableEq

/-- `_get_model` (server.py:193-202): model tag from character 7 of the name. -/
def get_model (name : String) : String :=
  if name.length < 8 then "Unknown Model"
  else
    match name.data[7]? with
    | none => "Unknown Model"
    | some c =>
      if c.toUpper = 'A' then "SG Timer Sport"
      else if c.toUpper = 'B' then "SG Timer GO"
      else "Unknown Model"

/-- The per-device state of a `DeviceManager` (server.py:177-191).
`client = true` means a `BleakClient` object exists; whether its link is up
is reported by the environment (`BleEnv.is_connected`).  `csv_file = some rows`
means the per-session CSV file is open and holds `rows` after its header. -/
structure DeviceManager where
  addr : String
  name : String
  client : Bool
  connected : Bool
  sess_id : Option Nat
  csv_file : Option (List CsvRow)
  stop_flag : Bool
  wd_running : Bool
  last_shot_time : Option ℚ
  api_version : String
  model : String
  deriving Repr, DecidableEq

/-- `DeviceManager.__init__` (server.py:180-191). -/
def DeviceManager.init (addr name : String) : DeviceManager :=
  { addr := addr, name := name, client := false, connected := false,
    sess_id := none, csv_file := none, stop_flag := false, wd_running := false,
    last_shot_time := none, api_version := "?", model := get_model name }

/-- The process-wide mutable state that `handle_event` touches: the device
manager plus the globals `session_state` and `last_session_state`. -/
structure World where
  dm : DeviceManager
  session_state : SessionState
  last_session_state : Option SessionState
  deriving Repr, DecidableEq

/-- A fixed world at process start: fresh device manager, initial globals. -/
def initWorld : World :=
  { dm := DeviceManager.init "AA:BB" "SG-SSTA1",
    session_state := init_session_state,
    last_session_state := none }

/-! ## Event decoding and handling (`DeviceManager.handle_event`, server.py:311-390) -/

/-- The typed outcome of reading the notification payload inside
`handle_event`: which branch of the `if etype == ...` chain runs, together
with the values the branch reads from the payload. -/
inductive BleEvent where
  | sessionStarted (raw : Nat)
  | shotDetected (idx ms : Nat)
  | sessionStopped
  | other (etype : String)
  deriving Repr, DecidableEq

/-- The payload reads performed by `handle_event` (server.py:315-347):
`none` models an uncaught `IndexError`; `some none` is the silent-drop of an
empty payload (server.py:316-317); `some (some ev)` selects a branch. -/
def decode_event (b : Bytes) : Option (Option BleEvent) :=
  if b = [] then some none
  else
    match b[1]? with
    | none => none
    | some event_id =>
      let etype := EVENT_TYPES event_id
      if etype = "SESSION_STARTED" then
        (be_u32 b 2).map (fun raw => some (.sessionStarted raw))
      else if etype = "SHOT_DETECTED" then
        match be_u16 b 6, be_u32 b 8 with
        | some idx, some ms => some (some (.shotDetected idx ms))
        | _, _ => none
      else if etype = "SESSION_STOPPED" then some (some .sessionStopped)
      else some (some (.other etype))

/-- The `SESSION_STARTED` branch (server.py:324-342).  `now` is
`int(time.time())`; Python's `be_u32(b, 2) or int(time.time())` takes `now`
exactly when the decoded id is zero. -/
def startStep (now : Nat) (w : World) (raw : Nat) : World × Msg :=
  let sid := if raw ≠ 0 then raw else now
  let dm := { w.dm with
              sess_id := some sid
              csv_file := some []
              last_shot_time := none }
  let ss : SessionState :=
    { active := true, status := "LIVE", shots := [], first_shot := 0,
      best_split := 0, total_time := 0, sess_id := some sid }
  ({ dm := dm, session_state := ss, last_session_state := w.last_session_state },
   { type := "SESSION_STARTED", addr := w.dm.addr, sess_id := some sid })

/-- The update of the global `session_state` performed by the
`SHOT_DETECTED` branch (server.py:360-369). -/
def recordShot (ss : SessionState) (shot_num : Nat) (shot_time : ℚ) : SessionState :=
  if ss.active then
    let shots := ss.shots ++ [{ num := shot_num, time := shot_time }]
    let ss1 := { ss with shots := shots, total_time := shot_time }
    if shots.length = 1 then
      { ss1 with first_shot := shot_time }
    else if 1 < shots.length then
      -- `split = shot_time - session_state["shots"][-2]["time"]`; the index
      -- `shots.length - 2` is in range here, so the default is never taken
      let split : ℚ := shot_time - (shots.getD (shots.length - 2) { num := 0, time := 0 }).time
      if ss1.best_split = 0 ∨ split < ss1.best_split then
        { ss1 with best_split := split }
      else ss1
    else ss1
  else ss

/-- The `SHOT_DETECTED` branch (server.py:345-377). -/
def shotStep (w : World) (idx ms : Nat) : World × Msg :=
  let shot_num := idx + 1
  let shot_time : ℚ := (ms : ℚ) / 1000
  let split_time : Option ℚ := w.dm.last_shot_time.map (fun t => shot_time - t)
  let msg : Msg :=
    { type := "SHOT_DETECTED", addr := w.dm.addr, num := some shot_num,
      time := some shot_time, split := split_time }
  let ss := recordShot w.session_state shot_num shot_time
  let dm := { w.dm with last_shot_time := some shot_time }
  let dm :=
    match dm.csv_file with
    | some rows =>
      { dm with csv_file := some (rows ++
          [{ event := "SHOT_DETECTED", shot_num := shot_num,
             shot_time := shot_time, split := split_time, ts_device := ms }]) }
    | none => dm
  ({ dm := dm, session_state := ss, last_session_state := w.last_session_state }, msg)

/-- The `SESSION_STOPPED` branch (server.py:380-388). -/
def stopStep (w : World) : World × Msg :=
  let dm := { w.dm with csv_file := none, last_shot_time := none }
  let ss := { w.session_state with active := false, status := "STOPPED" }
  ({ dm := dm, session_state := ss, last_session_state := some ss },
   { type := "SESSION_STOPPED", addr := w.dm.addr })

/-- `DeviceManager.handle_event` (server.py:311-390): decode the payload and
run the selected branch.  The result is `none` exactly when the Python code
raises; otherwise the new state and the list of broadcast messages (empty for
the silently dropped empty payload, a single message otherwise). -/
def handle_event (now : Nat) (w : World) (data : Bytes) : Option (World × List Msg) :=
  match decode_event data with
  | none => none
  | some none => some (w, [])
  | some (some ev) =>
    match ev with
    | .sessionStarted raw => let r := startStep now w raw; some (r.1, [r.2])
    | .shotDetected idx ms => let r := shotStep w idx ms; some (r.1, [r.2])
    | .sessionStopped => let r := stopStep w; some (r.1, [r.2])
    | .other etype => some (w, [{ type := etype, addr := w.dm.addr }])

/-- Sequential handling of several notifications (the per-device ordered
processing of the event stream), accumulating the broadcasts.  A raise
anywhere aborts the run (`none`). -/
def runEvents (now : Nat) : World → List Bytes → Option (World × List Msg)
  | w, [] => some (w, [])
  | w, p :: ps =>
    match handle_event now w p with
    | none => none
    | some (w1, m1) =>
      match runEvents now w1 ps with
      | none => none
      | some (w2, m2) => some (w2, m1 ++ m2)

/-! ## WebSocket hub (`WsHub`, server.py:72-102) -/

/-- The send loop of `WsHub.broadcast` (server.py:94-100): clients are tried
in order; `fail ws = true` models `ws.send_json` raising for that client.
Returns the clients that received the message and the `dead` list. -/
def deliver (fail : Nat → Bool) : List Nat → List Nat × List Nat
  | [] => ([], [])
  | ws :: rest =>
    let r := deliver fail rest
    if fail ws then (r.1, ws :: r.2) else (ws :: r.1, r.2)

/-- `WsHub.broadcast` (server.py:94-102): send to every client, then
`disconnect` (discard) each dead client.  Returns
(remaining clients, delivered-to, dead). -/
def broadcast_run (clients : List Nat) (fail : Nat → Bool) :
    List Nat × List Nat × List Nat :=
  let r := deliver fail clients
  (r.2.foldl (fun cs d => cs.erase d) clients, r.1, r.2)

/-- Truthiness of `session_state.get("sess_id")` (server.py:86): Python's
`None` and `0` are falsy. -/
def truthy : Option Nat → Bool
  | none => false
  | some n => n != 0

/-- The retained-state push of `WsHub.connect` (server.py:85-89): the
`SESSION_SYNC` message sent to a subscriber that just joined, if any. -/
def hub_sync_msg (w : World) : Option Msg :=
  if truthy w.session_state.sess_id then
    some { type := "SESSION_SYNC", state := some w.session_state }
  else
    match w.last_session_state with
    | some l => some { type := "SESSION_SYNC", state := some l }
    | none => none

/-! ## BLE transport oracle and connection lifecycle (server.py:204-309) -/

/-- Outcomes of the external `bleak` calls made during one `connect()` or
one watchdog pass: whether `client.is_connected` reports up, whether
`BleakClient.connect()` raises (and with which message), what
`read_gatt_char(API_VERSION_UUID)` returns (`none` = raises), and whether
`start_notify` raises. -/
structure BleEnv where
  is_connected : Bool
  connect_error : Option String
  version_data : Option (List Nat)
  notify_error : Option String
  deriving Repr, DecidableEq

/-- The printable-ASCII decode of the API version characteristic
(server.py:219). -/
def decode_version (data : List Nat) : String :=
  (String.mk ((data.filter (fun b => decide (32 ≤ b ∧ b ≤ 126))).map
    (fun b => Char.ofNat b))).trim

/-- The body of the `try` block of `DeviceManager.connect`
(server.py:206-241).  An `.error` result models an exception escaping the
block and carries the state mutations and broadcasts that already happened,
plus the exception text. -/
def connect_attempt (env : BleEnv) (dm : DeviceManager) :
    Except (DeviceManager × List Msg × String) (DeviceManager × List Msg) :=
  if dm.client && env.is_connected then .ok (dm, [])
  else
    let dm := { dm with client := true }
    match env.connect_error with
    | some e => .error (dm, [], e)
    | none =>
      let dm := { dm with connected := true }
      -- inner try (server.py:215-225): a read failure is caught locally
      let dm := { dm with api_version :=
        match env.version_data with
        | none => "Unavailable"
        | some data =>
          if data ≠ [] then
            let decoded := decode_version data
            if decoded ≠ "" then decoded else "Unknown"
          else "Unknown" }
      let msgs : List Msg :=
        [{ type := "DEVICE_CONNECTED", addr := dm.addr, name := dm.name,
           model := dm.model, api_version := dm.api_version }]
      match env.notify_error with
      | some e => .error (dm, msgs, e)
      | none =>
        let dm := { dm with wd_running := true, stop_flag := false }
        .ok (dm, msgs)

/-- `DeviceManager.connect` (server.py:204-245): the whole body runs under
`try ... except Exception`, so the method always returns normally; on any
exception it sets `connected = False` and broadcasts an `ERROR` message. -/
def DeviceManager.connect (env : BleEnv) (dm : DeviceManager) :
    DeviceManager × List Msg :=
  match connect_attempt env dm with
  | .ok r => r
  | .error (dm2, msgs, e) =>
    ({ dm2 with connected := false },
     msgs ++ [{ type := "ERROR", message := "connect failed: " ++ e }])

/-- The `try` block inside one watchdog pass (server.py:284-293):
`await self.connect()` followed by the `reconnected` broadcast.  Since
`connect` traps every exception itself and `broadcast` cannot raise, this
block always returns `.ok`. -/
def watchdog_try (env : BleEnv) (dm : DeviceManager) :
    Except String (DeviceManager × List Msg) :=
  let r := DeviceManager.connect env dm
  .ok (r.1, r.2 ++ [{ type := "WATCHDOG", status := "reconnected",
                      addr := dm.addr, name := dm.name, model := dm.model,
                      api_version := dm.api_version }])

/-- One pass of the watchdog loop body after the 5-second sleep
(server.py:271-309), when the manager is not stopped. -/
def DeviceManager.watchdog_iter (env : BleEnv) (dm : DeviceManager) :
    DeviceManager × List Msg :=
  if dm.client && env.is_connected then (dm, [])
  else
    let dm1 := { dm with connected := false }
    let m1 : Msg :=
      { type := "WATCHDOG", status := "disconnected", addr := dm1.addr,
        name := dm1.name, model := dm1.model, api_version := dm1.api_version }
    match watchdog_try env dm1 with
    | .ok (dm2, m2) => (dm2, m1 :: m2)
    | .error e =>
      (dm1, [m1, { type := "WATCHDOG", status := "retry_failed:" ++ e,
                   addr := dm1.addr, name := dm1.name }])

/-! ## The `/connect` endpoint (`connect_device`, server.py:412-432) -/

/-- Response dict of the `/connect` endpoint. -/
structure ConnectResponse where
  status : String
  address : String
  name : String
  model : String
  api_version : String
  deriving Repr, DecidableEq

/-- Python dict assignment `devices[addr] = dm`. -/
def upsert : List (String × DeviceManager) → String → DeviceManager →
    List (String × DeviceManager)
  | [], k, v => [(k, v)]
  | (k0, v0) :: rest, k, v =>
    if k0 = k then (k, v) :: rest else (k0, v0) :: upsert rest k v

/-- `connect_device` (server.py:412-432).  `addr?`/`name?` are
`body.get("address")` / `body.get("name", None)`; Python's `if not addr`
treats `None` and `""` as missing (`.error` = HTTP 400).  Returns the new
registry, the response dict, and the broadcasts that happened. -/
def connect_device (env : BleEnv) (devices : List (String × DeviceManager))
    (addr? name? : Option String) :
    Except String (List (String × DeviceManager) × ConnectResponse × List Msg) :=
  match addr? with
  | none => .error "Missing address"
  | some addr =>
    if addr = "" then .error "Missing address"
    else
      let dm :=
        match devices.lookup addr with
        | none =>
          DeviceManager.init addr
            (match name? with
             | some n => if n ≠ "" then n else addr
             | none => addr)
        | some dm0 =>
          { dm0 with name :=
              match name? with
              | some n => if n ≠ "" then n else dm0.name
              | none => dm0.name }
      let r := DeviceManager.connect env dm
      .ok (upsert devices addr r.1,
           { status := "connected", address := addr, name := r.1.name,
             model := r.1.model, api_version := r.1.api_version },
           r.2)

/-! ## Whole-process steps for reachability (session state retention) -/

/-- The operations that mutate the retained session state: a BLE
notification handled by `handle_event` (with `now` the wall clock), and the
`/clear_sessions` endpoint (server.py:138-164), which drops
`last_session_state`.  A raising `handle_event` leaves the state unchanged
(every mutation in the Python handler happens after all payload reads). -/
inductive Act where
  | ble (now : Nat) (data : Bytes)
  | clear
  deriving Repr

/-- Effect of one `Act` on the retained state. -/
def stepWorld (w : World) : Act → World
  | .ble now data =>
    match handle_event now w data with
    | some r => r.1
    | none => w
  | .clear => { w with last_session_state := none }

/-- Run a sequence of operations from a given world. -/
def runActs (w : World) (acts : List Act) : World := acts.foldl stepWorld w

/-- A wall clock reading `int(time.time())` is positive in any run after
the epoch; `clear` involves no clock. -/
def validNow : Act → Prop
  | .ble now _ => now ≠ 0
  | .clear => True

/-! ## Specification-side functions (from the spec text, for comparison) -/

/-- Shot-time in seconds from the device millisecond timestamp
(`shot_time = shot_time_ms / 1000.0`). -/
def qms (m : Nat) : ℚ := (m : ℚ) / 1000

/-- Consecutive differences of a list of shot times: the splits. -/
def diffs : List ℚ → List ℚ
  | a :: b :: rest => (b - a) :: diffs (b :: rest)
  | _ => []

/-- Minimum of a list, `0` for the empty list. -/
def minOr0 : List ℚ → ℚ
  | [] => 0
  | [a] => a
  | a :: b :: rest => min a (minOr0 (b :: rest))

/-- Modelled from the spec (testable property for `best_split`): "the
minimum over all positive `split[i]`, or 0.0 if no split was positive yet".
This is the claimed value, to be compared with what the code computes. -/
def spec_best_split (ts : List ℚ) : ℚ :=
  minOr0 ((diffs ts).filter (fun s => decide (0 < s)))

/-- The split values the claims predict for the broadcast messages of a
run of shots: null for the first shot, `time[i] - time[i-1]` afterwards. -/
def expSplits (ts : List ℚ) : List (Option ℚ) :=
  match ts with
  | [] => []
  | _ :: _ => none :: (diffs ts).map some

/-- Split fields actually emitted by a run of `shotStep`s, starting from a
given `last_shot_time`: the first message carries `last_shot_time`-based
split (null when unset), each later one the difference to its predecessor. -/
def expectedSplits (p : Option ℚ) : List ℚ → List (Option ℚ)
  | [] => []
  | t :: rest => (p.map (fun q0 => t - q0)) :: expectedSplits (some t) rest

/-- Last element of a time list, or the given fallback. -/
def lastD (d : ℚ) : List ℚ → ℚ
  | [] => d
  | t :: rest => lastD t rest

/-- Head of a time list, or the given fallback. -/
def headD (d : ℚ) : List ℚ → ℚ
  | [] => d
  | t :: _ => t

/-- Last element as an option with fallback (tracks `last_shot_time`). -/
def lastOr (p : Option ℚ) : List ℚ → Option ℚ
  | [] => p
  | t :: rest => lastOr (some t) rest

/-- The payload `p` reaches the `SHOT_DETECTED` branch and decodes shot
index `i` and millisecond time `m` (all the reads `handle_event` performs
on it succeed with these values). -/
def decodesShot (p : Bytes) (i m : Nat) : Prop :=
  p ≠ [] ∧ p[1]? = some 4 ∧ be_u16 p 6 = some i ∧ be_u32 p 8 = some m

instance (p : Bytes) (i m : Nat) : Decidable (decodesShot p i m) := by
  unfold decodesShot; infer_instance

/-- The session-ledger fold of a list of (shot number, shot time) pairs. -/
def recordShotsP (ss : SessionState) : List (Nat × ℚ) → SessionState
  | [] => ss
  | (n, t) :: rest => recordShotsP (recordShot ss n t) rest

/-! ## Small decoding lemmas -/

theorem EVENT_TYPES_of_ge (id : Nat) (h : 6 ≤ id) : EVENT_TYPES id = "UNKNOWN" := by
  unfold EVENT_TYPES
  rw [if_neg (by omega), if_neg (by omega), if_neg (by omega), if_neg (by omega),
    if_neg (by omega), if_neg (by omega)]

theorem be_u32_none_of_short (b : Bytes) (o : Nat) (h : b[o + 3]? = none) :
    be_u32 b o = none := by
  unfold be_u32
  cases h0 : b[o]? <;> cases h1 : b[o + 1]? <;> cases h2 : b[o + 2]? <;>
    simp [h0, h1, h2, h, Option.bind]

/-! ## C4: the worked shot-decoding example -/

/-- C4, counterexample: the 6-byte payload `[0x00,0x04,0x00,0x00,0x01,0xF4]`
given by the claim does not yield a shot event as the first shot of a
session; `handle_event` reads offsets 6-7 and 8-11, so the payload raises
(`none`) instead of producing `{num:1, time:0.5, split:null}`. -/
theorem six_byte_shot_payload_raises :
    runEvents 99 initWorld [[0, 0, 0, 0, 3, 232], [0x00, 0x04, 0x00, 0x00, 0x01, 0xF4]] = none ∧
    handle_event 99 (startStep 99 initWorld 1000).1 [0x00, 0x04, 0x00, 0x00, 0x01, 0xF4] = none := by
  with_unfolding_all decide

/-- C4, amended: with the shot index in bytes 6-7 and the millisecond time
in bytes 8-11 (12-byte payloads), the first shot decodes to
`{num:1, time:0.5, split:null}`, the second to `{num:2, time:0.8, split:0.3}`,
and `best_split` becomes `0.3`. -/
theorem shot_example_twelve_byte :
    (runEvents 99 initWorld
        [[0, 0, 0, 0, 3, 232],
         [0x00, 0x04, 0, 0, 0, 0, 0x00, 0x00, 0x00, 0x00, 0x01, 0xF4],
         [0x00, 0x04, 0, 0, 0, 0, 0x00, 0x01, 0x00, 0x00, 0x03, 0x20]]).map
        (fun r => r.2.map (fun m => (m.num, m.time, m.split))) =
      some [(none, none, none),
            (some 1, some ((1 : ℚ)/2), none),
            (some 2, some ((4 : ℚ)/5), some ((3 : ℚ)/10))] ∧
    (runEvents 99 initWorld
        [[0, 0, 0, 0, 3, 232],
         [0x00, 0x04, 0, 0, 0, 0, 0x00, 0x00, 0x00, 0x00, 0x01, 0xF4],
         [0x00, 0x04, 0, 0, 0, 0, 0x00, 0x01, 0x00, 0x00, 0x03, 0x20]]).map
        (fun r => r.1.session_state.best_split) = some ((3 : ℚ)/10) := by
  with_unfolding_all decide

/-! ## C6: session-id decoding and wall-clock fallback -/

/-- C6: on a `SESSION_STARTED` notification the session id is the
big-endian 32-bit value at bytes 2-5, and the wall clock `now` is
substituted exactly when that value is zero — in the device manager, the
retained session state, and the broadcast message. -/
theorem session_id_fallback (now : Nat) (w : World) (b : Bytes) (raw : Nat)
    (h1 : b[1]? = some 0) (h2 : be_u32 b 2 = some raw) :
    (handle_event now w b).map
        (fun r => (r.1.dm.sess_id, r.1.session_state.sess_id, r.2.map Msg.sess_id)) =
      some (some (if raw = 0 then now else raw),
            some (if raw = 0 then now else raw),
            [some (if raw = 0 then now else raw)]) := by
  have hb : b ≠ [] := by rintro rfl; simp at h1
  simp only [handle_event, decode_event, if_neg hb, h1, EVENT_TYPES, startStep]
  rw [h2]
  rcases eq_or_ne raw 0 with h | h <;> simp [h]

/-- C6 witness: with the decoded id zero, the wall clock 42 is used. -/
theorem session_id_fallback_witness :
    (handle_event 42 initWorld [0, 0, 0, 0, 0, 0]).map
        (fun r => (r.1.dm.sess_id, r.1.session_state.sess_id, r.2.map Msg.sess_id)) =
      some (some 42, some 42, [some 42]) := by
  have h := session_id_fallback 42 initWorld [0, 0, 0, 0, 0, 0] 0 rfl rfl
  simpa using h

/-! ## C7: empty payloads and unknown discriminants are harmless -/

/-- C7: an empty payload is silently dropped (no event, no error), and any
payload of length at least 2 whose type byte is outside the discriminant
table is handled without error, producing exactly one `UNKNOWN` message and
changing no state. -/
theorem empty_and_unknown_payload_safe (now : Nat) (w : World) :
    handle_event now w [] = some (w, []) ∧
    ∀ (b : Bytes) (id : Nat), b[1]? = some id → 6 ≤ id →
      handle_event now w b = some (w, [{ type := "UNKNOWN", addr := w.dm.addr }]) := by
  refine ⟨rfl, ?_⟩
  intro b id h1 h6
  have hb : b ≠ [] := by rintro rfl; simp at h1
  simp [handle_event, decode_event, if_neg hb, h1, EVENT_TYPES_of_ge id h6]

/-- C7 witness: the empty payload and the unknown type byte 9. -/
theorem empty_and_unknown_payload_safe_witness :
    handle_event 0 initWorld [] = some (initWorld, []) ∧
    handle_event 0 initWorld [0, 9] =
      some (initWorld, [{ type := "UNKNOWN", addr := "AA:BB" }]) := by
  refine ⟨(empty_and_unknown_payload_safe 0 initWorld).1, ?_⟩
  have h := (empty_and_unknown_payload_safe 0 initWorld).2 [0, 9] 9 rfl (by omega)
  simpa [initWorld, DeviceManager.init] using h

/-! ## C9: the decode path is not total -/

/-- C9: every payload of length 1 raises (reading the type byte at offset 1),
and every payload whose type byte is `0x04` but which is shorter than 12
bytes raises while reading the shot fields at offsets 6-11; `none` is the
model of the uncaught exception. -/
theorem decode_not_total (now : Nat) (w : World) :
    (∀ b : Bytes, b.length = 1 → handle_event now w b = none) ∧
    (∀ b : Bytes, b[1]? = some 4 → b.length < 12 → handle_event now w b = none) := by
  constructor
  · intro b hl
    cases b with
    | nil => simp at hl
    | cons x rest =>
      cases rest with
      | nil => rfl
      | cons y r => simp at hl
  · intro b h4 hlen
    have h11 : b[11]? = none := List.getElem?_eq_none (by omega)
    have hu32 : be_u32 b 8 = none := be_u32_none_of_short b 8 (by simpa using h11)
    have hb : b ≠ [] := by rintro rfl; simp at h4
    cases h16 : be_u16 b 6 <;>
      simp [handle_event, decode_event, if_neg hb, h4, EVENT_TYPES, h16, hu32]

/-- C9 witness: the 1-byte payload `[7]` and the truncated 8-byte
`SHOT_DETECTED` payload both raise. -/
theorem decode_not_total_witness :
    handle_event 0 initWorld [7] = none ∧
    handle_event 0 initWorld [0, 4, 0, 0, 0, 0, 0, 0] = none :=
  ⟨(decode_not_total 0 initWorld).1 [7] rfl,
   (decode_not_total 0 initWorld).2 [0, 4, 0, 0, 0, 0, 0, 0] rfl (by decide)⟩

/-! ## C2: what the watchdog broadcasts when reconnection fails -/

/-- A transport environment in which the link is down and the BLE connect
call raises `"boom"`. -/
def envConnFail : BleEnv :=
  { is_connected := false, connect_error := some "boom",
    version_data := some [], notify_error := none }

/-- C2: evaluating one watchdog pass with the link down and the BLE connect
raising shows the actual broadcasts: `WATCHDOG disconnected`, then the
`ERROR` emitted inside `connect()` (which traps its own failure), then
`WATCHDOG reconnected` — even though the device is still disconnected.  No
`retry_failed` message is produced: the `except` branch that would emit it
is unreachable because `connect()` cannot raise. -/
theorem watchdog_failed_reconnect_eval :
    (DeviceManager.watchdog_iter envConnFail (DeviceManager.init "AA:BB" "SG-SSTA1")).2.map
        (fun m => (m.type, m.status, m.message)) =
      [("WATCHDOG", "disconnected", ""),
       ("ERROR", "", "connect failed: boom"),
       ("WATCHDOG", "reconnected", "")] ∧
    (DeviceManager.watchdog_iter envConnFail (DeviceManager.init "AA:BB" "SG-SSTA1")).1.connected = false := by
  with_unfolding_all decide

/-! ## C8: broadcast delivers independently and prunes exactly the dead -/

theorem deliver_eq (fail : Nat → Bool) : ∀ cs : List Nat,
    deliver fail cs = (cs.filter (fun c => !(fail c)), cs.filter fail) := by
  intro cs
  induction cs with
  | nil => rfl
  | cons ws rest ih =>
    simp only [deliver, ih, List.filter_cons]
    cases h : fail ws <;> simp [h]

theorem foldl_erase_eq_filter : ∀ (ds cs : List Nat), cs.Nodup →
    ds.foldl (fun l d => l.erase d) cs = cs.filter (fun c => !(ds.contains c)) := by
  intro ds
  induction ds with
  | nil => intro cs _; simp
  | cons d ds ih =>
    intro cs h
    simp only [List.foldl_cons]
    rw [ih (cs.erase d) (h.erase d), List.Nodup.erase_eq_filter h d, List.filter_filter]
    refine List.filter_congr ?_
    intro a _
    by_cases hda : a = d <;> by_cases hc : a ∈ ds <;>
      simp [List.contains_cons, hda, hc]

/-- C8: `broadcast` attempts delivery to each subscriber independently:
the delivered set is exactly the subscribers whose send does not fail (one
failure never blocks the others), the dead list is exactly the failing
subscribers, every subscriber is attempted, and precisely the failing
subscribers are removed from the live set. -/
theorem broadcast_independent_prune (clients : List Nat) (fail : Nat → Bool)
    (hnd : clients.Nodup) :
    (broadcast_run clients fail).2.1 = clients.filter (fun c => !(fail c)) ∧
    (broadcast_run clients fail).2.2 = clients.filter fail ∧
    (∀ c ∈ clients,
      (fail c = false → c ∈ (broadcast_run clients fail).2.1) ∧
      (fail c = true → c ∈ (broadcast_run clients fail).2.2)) ∧
    (broadcast_run clients fail).1 = clients.filter (fun c => !(fail c)) := by
  have hdel := deliver_eq fail clients
  have hrem : (broadcast_run clients fail).1 = clients.filter (fun c => !(fail c)) := by
    simp only [broadcast_run, hdel]
    rw [foldl_erase_eq_filter (clients.filter fail) clients hnd]
    refine List.filter_congr ?_
    intro a ha
    by_cases hf : fail a <;>
      simp [List.elem_iff, List.mem_filter, ha, hf]
  refine ⟨by simp [broadcast_run, hdel], by simp [broadcast_run, hdel], ?_, hrem⟩
  intro c hc
  constructor
  · intro hf; simp [broadcast_run, hdel, List.mem_filter, hc, hf]
  · intro hf; simp [broadcast_run, hdel, List.mem_filter, hc, hf]

/-- C8 witness: three subscribers, the middle one failing: both others are
delivered to, and exactly the failing one is pruned. -/
theorem broadcast_independent_prune_witness :
    (broadcast_run [1, 2, 3] (fun c => c == 2)).2.1 = [1, 3] ∧
    (broadcast_run [1, 2, 3] (fun c => c == 2)).2.2 = [2] ∧
    (broadcast_run [1, 2, 3] (fun c => c == 2)).1 = [1, 3] := by
  have h := broadcast_independent_prune [1, 2, 3] (fun c => c == 2) (by decide)
  exact ⟨by rw [h.1]; decide, by rw [h.2.1]; decide, by rw [h.2.2.2]; decide⟩

/-! ## C10: the `/connect` endpoint always answers "connected" -/

theorem lookup_upsert (l : List (String × DeviceManager)) (k : String) (v : DeviceManager) :
    (upsert l k v).lookup k = some v := by
  induction l with
  | nil => simp [upsert, List.lookup]
  | cons hd tl ih =>
    obtain ⟨k0, v0⟩ := hd
    by_cases h : k0 = k
    · subst h; simp [upsert, List.lookup]
    · have hbk : (k == k0) = false := by
        simp [beq_eq_false_iff_ne]; exact fun he => h he.symm
      simp [upsert, if_neg h, List.lookup, hbk, ih]

/-- C10: with a present, fresh address and a failing BLE connect, the
`/connect` handler still returns `status = "connected"`, while the stored
device manager is left disconnected and the only broadcast is the `ERROR`
message from `connect()`: the response status does not reflect the outcome. -/
theorem connect_endpoint_status_constant (env : BleEnv)
    (devs : List (String × DeviceManager)) (addr : String) (name? : Option String)
    (e : String) (haddr : addr ≠ "") (hfresh : devs.lookup addr = none)
    (hfail : env.connect_error = some e) :
    ((connect_device env devs (some addr) name?).toOption.map
        (fun r => r.2.1.status) = some "connected") ∧
    ((connect_device env devs (some addr) name?).toOption.map
        (fun r => (r.1.lookup addr).map DeviceManager.connected) = some (some false)) ∧
    ((connect_device env devs (some addr) name?).toOption.map
        (fun r => r.2.2.map Msg.type) = some ["ERROR"]) := by
  simp only [connect_device, if_neg haddr, hfresh, DeviceManager.connect,
    connect_attempt, hfail, DeviceManager.init]
  simp [lookup_upsert, Except.toOption]

/-- C10 witness: fresh registry, failing BLE connect, address "AA:BB". -/
theorem connect_endpoint_status_constant_witness :
    ((connect_device envConnFail [] (some "AA:BB") none).toOption.map
        (fun r => r.2.1.status) = some "connected") ∧
    ((connect_device envConnFail [] (some "AA:BB") none).toOption.map
        (fun r => (r.1.lookup "AA:BB").map DeviceManager.connected) = some (some false)) ∧
    ((connect_device envConnFail [] (some "AA:BB") none).toOption.map
        (fun r => r.2.2.map Msg.type) = some ["ERROR"]) :=
  connect_endpoint_status_constant envConnFail [] "AA:BB" none "boom"
    (by decide) rfl rfl

/-! ## Projection lemmas for `recordShot` -/

theorem recordShot_inactive (ss : SessionState) (n : Nat) (t : ℚ)
    (h : ss.active = false) : recordShot ss n t = ss := by
  simp [recordShot, h]

theorem recordShot_active_eq (ss : SessionState) (n : Nat) (t : ℚ) :
    (recordShot ss n t).active = ss.active := by
  unfold recordShot
  split
  · dsimp only
    split
    · simp
    · split
      · split <;> simp
      · simp
  · rfl

theorem recordShot_sess_id_eq (ss : SessionState) (n : Nat) (t : ℚ) :
    (recordShot ss n t).sess_id = ss.sess_id := by
  unfold recordShot
  split
  · dsimp only
    split
    · simp
    · split
      · split <;> simp
      · simp
  · rfl

theorem recordShot_status_eq (ss : SessionState) (n : Nat) (t : ℚ) :
    (recordShot ss n t).status = ss.status := by
  unfold recordShot
  split
  · dsimp only
    split
    · simp
    · split
      · split <;> simp
      · simp
  · rfl

/-! ## C3: state retention invariants and the late-joiner sync -/

/-- While the retained session is active its stored id is truthy (a
subscriber joining mid-session takes the first branch of the sync push). -/
abbrev InvA (w : World) : Prop :=
  w.session_state.active = true → truthy w.session_state.sess_id = true

/-- Once the retained session is stopped, any existing last-completed
snapshot is identical to the retained record. -/
abbrev InvB (w : World) : Prop :=
  w.session_state.active = false →
    ∀ s, w.last_session_state = some s → w.session_state = s

instance : (a : Act) → Decidable (validNow a)
  | .ble now _ => inferInstanceAs (Decidable (now ≠ 0))
  | .clear => .isTrue trivial

theorem inv_step (w : World) (a : Act) (hv : validNow a)
    (hA : InvA w) (hB : InvB w) : InvA (stepWorld w a) ∧ InvB (stepWorld w a) := by
  cases a with
  | clear =>
    refine ⟨fun h => hA h, fun _ s hs => ?_⟩
    simp [stepWorld] at hs
  | ble now data =>
    simp only [stepWorld]
    cases hde : decode_event data with
    | none => simpa [handle_event, hde] using ⟨hA, hB⟩
    | some oev =>
      cases oev with
      | none => simpa [handle_event, hde] using ⟨hA, hB⟩
      | some ev =>
        cases ev with
        | sessionStarted raw =>
          simp only [handle_event, hde, startStep]
          constructor
          · intro _
            rcases eq_or_ne raw 0 with h | h <;> simp [truthy, h]
            · exact hv
          · intro h
            simp at h
        | shotDetected idx ms =>
          simp only [handle_event, hde, shotStep]
          by_cases hact : w.session_state.active = true
          · constructor
            · intro _
              simpa [truthy, recordShot_sess_id_eq] using hA hact
            · intro h
              rw [recordShot_active_eq] at h
              rw [hact] at h
              simp at h
          · have hact' : w.session_state.active = false := by
              simpa using hact
            rw [recordShot_inactive _ _ _ hact']
            exact ⟨fun h => hA h, fun h s hs => hB h s hs⟩
        | sessionStopped =>
          simp only [handle_event, hde, stopStep]
          constructor
          · intro h
            simp at h
          · intro _ s hs
            simp only [Option.some.injEq] at hs
            rw [← hs]
        | other etype =>
          simpa [handle_event, hde] using ⟨hA, hB⟩

theorem inv_run : ∀ (acts : List Act) (w : World), (∀ a ∈ acts, validNow a) →
    InvA w → InvB w → InvA (runActs w acts) ∧ InvB (runActs w acts) := by
  intro acts
  induction acts with
  | nil => intro w _ hA hB; exact ⟨hA, hB⟩
  | cons a rest ih =>
    intro w hv hA hB
    have h1 := inv_step w a (hv a (by simp)) hA hB
    have h2 := ih (stepWorld w a) (fun x hx => hv x (by simp [hx])) h1.1 h1.2
    simpa [runActs, List.foldl_cons] using h2

/-- C3, amended: for every reachable retained state (any sequence of handled
notifications and `/clear_sessions` calls, with nonzero wall clocks), a
joining subscriber is pushed (a) the current in-memory record while the
session is active; (b) a state equal to the last-completed snapshot whenever
the session is stopped and that snapshot exists — either directly or via the
retained record, which then coincides with it; and (c) nothing when no
session id was ever retained and no snapshot exists.  (After
`/clear_sessions`, a stopped session id remains retained, so a sync carrying
the old record is still pushed — see the counterexample.) -/
theorem session_sync_amended (acts : List Act) (hv : ∀ a ∈ acts, validNow a) :
    ((runActs initWorld acts).session_state.active = true →
      hub_sync_msg (runActs initWorld acts) =
        some { type := "SESSION_SYNC",
               state := some (runActs initWorld acts).session_state }) ∧
    ((runActs initWorld acts).session_state.active = false →
      ∀ s, (runActs initWorld acts).last_session_state = some s →
        hub_sync_msg (runActs initWorld acts) =
          some { type := "SESSION_SYNC", state := some s }) ∧
    ((runActs initWorld acts).session_state.sess_id = none →
      (runActs initWorld acts).last_session_state = none →
      hub_sync_msg (runActs initWorld acts) = none) := by
  obtain ⟨hA, hB⟩ := inv_run acts initWorld hv
    (by intro h; simp [initWorld, init_session_state] at h)
    (by intro _ s hs; simp [initWorld] at hs)
  refine ⟨?_, ?_, ?_⟩
  · intro hact
    simp [hub_sync_msg, hA hact]
  · intro hact s hs
    have hss := hB hact s hs
    cases htr : truthy (runActs initWorld acts).session_state.sess_id
    · simp [hub_sync_msg, htr, hs]
    · have h1 : hub_sync_msg (runActs initWorld acts) =
          some { type := "SESSION_SYNC",
                 state := some (runActs initWorld acts).session_state } := by
        simp [hub_sync_msg, htr]
      rw [h1, hss]
  · intro hsid hlast
    simp [hub_sync_msg, hsid, truthy, hlast]

/-- C3 witness: session 5 started and stopped; a subscriber joining
afterwards receives a `SESSION_SYNC` equal to the last-completed snapshot. -/
theorem session_sync_amended_witness :
    hub_sync_msg (runActs initWorld [.ble 100 [0, 0, 0, 0, 0, 5], .ble 100 [0, 3]]) =
      some { type := "SESSION_SYNC",
             state := some { active := false, status := "STOPPED", shots := [],
                             first_shot := 0, best_split := 0, total_time := 0,
                             sess_id := some 5 } } :=
  (session_sync_amended [.ble 100 [0, 0, 0, 0, 0, 5], .ble 100 [0, 3]]
      (by decide)).2.1
    (by with_unfolding_all decide) _ (by with_unfolding_all decide)

/-- C3, counterexample: start session 5, stop it, then `/clear_sessions`.
The session is stopped and no last-completed snapshot exists, yet a joining
subscriber is still pushed a `SESSION_SYNC` (carrying the stale stopped
record), because the push condition tests the retained session id rather
than the active flag — contradicting the claim that no `SESSION_SYNC` is
pushed when neither an active session nor a snapshot exists. -/
theorem session_sync_after_clear_counterexample :
    (runActs initWorld [.ble 100 [0, 0, 0, 0, 0, 5], .ble 100 [0, 3], .clear]).session_state.active = false ∧
    (runActs initWorld [.ble 100 [0, 0, 0, 0, 0, 5], .ble 100 [0, 3], .clear]).last_session_state = none ∧
    hub_sync_msg (runActs initWorld [.ble 100 [0, 0, 0, 0, 0, 5], .ble 100 [0, 3], .clear]) =
      some { type := "SESSION_SYNC",
             state := some { active := false, status := "STOPPED", shots := [],
                             first_shot := 0, best_split := 0, total_time := 0,
                             sess_id := some 5 } } := by
  with_unfolding_all decide

/-! ## List lemmas about `diffs`, `minOr0`, `lastD`, `expectedSplits` -/

theorem lastD_irrel (l : List ℚ) (h : l ≠ []) (d d' : ℚ) : lastD d l = lastD d' l := by
  induction l generalizing d d' with
  | nil => cases h rfl
  | cons a r ih =>
    cases r with
    | nil => rfl
    | cons b r2 => simp only [lastD]

theorem diffs_append_last (U : List ℚ) (t : ℚ) (h : U ≠ []) :
    diffs (U ++ [t]) = diffs U ++ [t - lastD 0 U] := by
  induction U with
  | nil => cases h rfl
  | cons a r ih =>
    cases r with
    | nil => simp [diffs, lastD]
    | cons b r2 =>
      have h2 : (b :: r2 : List ℚ) ≠ [] := by simp
      have ih2 := ih h2
      simp only [List.cons_append] at ih2
      simp only [List.cons_append, List.append_eq, diffs, ih2, lastD]

theorem minOr0_append_last (xs : List ℚ) (y : ℚ) (h : xs ≠ []) :
    minOr0 (xs ++ [y]) = min (minOr0 xs) y := by
  induction xs with
  | nil => cases h rfl
  | cons a r ih =>
    cases r with
    | nil => simp [minOr0]
    | cons b r2 =>
      have h2 : (b :: r2 : List ℚ) ≠ [] := by simp
      have ih2 := ih h2
      simp only [List.cons_append] at ih2
      simp only [List.cons_append, List.append_eq, minOr0, ih2]
      rw [min_assoc]

theorem minOr0_pos (xs : List ℚ) (h : ∀ x ∈ xs, 0 < x) (hne : xs ≠ []) :
    0 < minOr0 xs := by
  induction xs with
  | nil => cases hne rfl
  | cons a r ih =>
    cases r with
    | nil => simpa [minOr0] using h a (by simp)
    | cons b r2 =>
      simp only [minOr0]
      exact lt_min (h a (by simp)) (ih (fun x hx => h x (by simp [hx])) (by simp))

theorem minOr0_append_le (ys zs : List ℚ) (h : ys ≠ []) :
    minOr0 (ys ++ zs) ≤ minOr0 ys := by
  induction ys with
  | nil => cases h rfl
  | cons a r ih =>
    cases r with
    | nil =>
      cases zs with
      | nil => simp
      | cons z zs2 =>
        simp only [List.cons_append, List.nil_append, minOr0]
        exact min_le_left a (minOr0 (z :: zs2))
    | cons b r2 =>
      simp only [List.cons_append, minOr0]
      exact min_le_min le_rfl (ih (by simp))

theorem diffs_pos_of_chain (ts : List ℚ) (h : List.Chain' (· < ·) ts) :
    ∀ d ∈ diffs ts, 0 < d := by
  induction ts with
  | nil => simp [diffs]
  | cons a r ih =>
    cases r with
    | nil => simp [diffs]
    | cons b r2 =>
      rw [List.chain'_cons] at h
      intro d hd
      simp only [diffs, List.mem_cons] at hd
      rcases hd with rfl | hd
      · exact sub_pos.mpr h.1
      · exact ih h.2 d hd

theorem chain'_take_of {R : ℚ → ℚ → Prop} (ts : List ℚ) (h : List.Chain' R ts)
    (k : Nat) : List.Chain' R (ts.take k) := by
  have hsplit := List.take_append_drop k ts
  rw [← hsplit] at h
  exact (List.chain'_append.mp h).1

theorem diffs_take (ts : List ℚ) : ∀ k, diffs (ts.take k) = (diffs ts).take (k - 1) := by
  induction ts with
  | nil => intro k; simp [diffs]
  | cons a r ih =>
    intro k
    cases r with
    | nil =>
      cases k with
      | zero => simp [diffs]
      | succ k2 => simp [diffs]
    | cons b r2 =>
      cases k with
      | zero => simp [diffs]
      | succ k2 =>
        cases k2 with
        | zero => simp [diffs]
        | succ k3 =>
          have := ih (k3 + 1)
          simp only [List.take_succ_cons, diffs] at this ⊢
          rw [this]
          simp

theorem minOr0_take_mono (xs : List ℚ) (j k : Nat) (hjk : j ≤ k)
    (hne : xs.take j ≠ []) : minOr0 (xs.take k) ≤ minOr0 (xs.take j) := by
  have hk : k = j + (k - j) := by omega
  rw [hk, List.take_add]
  exact minOr0_append_le _ _ hne

theorem getD_append_time (l : List Shot) (x d : Shot) (h : l ≠ []) :
    ((l ++ [x]).getD ((l ++ [x]).length - 2) d).time = lastD 0 (l.map Shot.time) := by
  induction l with
  | nil => cases h rfl
  | cons a r ih =>
    cases r with
    | nil => simp [List.getD, lastD]
    | cons b r2 =>
      have h2 : (b :: r2 : List Shot) ≠ [] := by simp
      have hidx : ((a :: b :: r2) ++ [x]).length - 2 = (((b :: r2) ++ [x]).length - 2) + 1 := by
        simp
      rw [hidx, List.cons_append, List.getD_cons_succ, ih h2]
      simp only [List.map_cons, lastD]

theorem recordShot_fields (ss : SessionState) (n : Nat) (t : ℚ) (h : ss.active = true) :
    (recordShot ss n t).shots = ss.shots ++ [{ num := n, time := t }] ∧
    (recordShot ss n t).total_time = t ∧
    (recordShot ss n t).first_shot = (if ss.shots = [] then t else ss.first_shot) ∧
    (recordShot ss n t).best_split =
      (if ss.shots = [] then ss.best_split
       else
         if ss.best_split = 0 ∨ t - lastD 0 (ss.shots.map Shot.time) < ss.best_split
         then t - lastD 0 (ss.shots.map Shot.time) else ss.best_split) := by
  obtain ⟨ac, st, sh, fs, bs, tt, si⟩ := ss
  simp only at h
  subst h
  by_cases hs : sh = []
  · subst hs
    simp [recordShot]
  · have hpos : 0 < sh.length := List.length_pos.mpr hs
    have hlen1 : ¬(sh ++ [({ num := n, time := t } : Shot)]).length = 1 := by
      simp only [List.length_append, List.length_cons, List.length_nil]
      omega
    have hlen2 : 1 < (sh ++ [({ num := n, time := t } : Shot)]).length := by
      simp only [List.length_append, List.length_cons, List.length_nil]
      omega
    have hgd := getD_append_time sh ({ num := n, time := t } : Shot)
      ({ num := 0, time := 0 } : Shot) hs
    simp only [recordShot, if_true, hlen1, hlen2, if_false, hs, hgd]
    exact ⟨by split <;> rfl, by split <;> rfl, by split <;> rfl, by split <;> rfl⟩

/-! ## Characterisation of the ledger fold `recordShotsP` -/

theorem recordShotsP_active (l : List (Nat × ℚ)) : ∀ ss : SessionState,
    (recordShotsP ss l).active = ss.active := by
  induction l with
  | nil => intro ss; rfl
  | cons p rest ih =>
    intro ss
    obtain ⟨n, t⟩ := p
    rw [recordShotsP, ih, recordShot_active_eq]

theorem recordShotsP_shots (l : List (Nat × ℚ)) : ∀ ss : SessionState,
    ss.active = true →
    (recordShotsP ss l).shots =
      ss.shots ++ l.map (fun p => ({ num := p.1, time := p.2 } : Shot)) := by
  induction l with
  | nil => intro ss _; simp [recordShotsP]
  | cons p rest ih =>
    intro ss h
    obtain ⟨n, t⟩ := p
    have h2 : (recordShot ss n t).active = true := by
      rw [recordShot_active_eq]; exact h
    rw [recordShotsP, ih _ h2, (recordShot_fields ss n t h).1]
    simp

theorem recordShotsP_total (l : List (Nat × ℚ)) : ∀ ss : SessionState,
    ss.active = true →
    (recordShotsP ss l).total_time = lastD ss.total_time (l.map Prod.snd) := by
  induction l with
  | nil => intro ss _; rfl
  | cons p rest ih =>
    intro ss h
    obtain ⟨n, t⟩ := p
    have h2 : (recordShot ss n t).active = true := by
      rw [recordShot_active_eq]; exact h
    rw [recordShotsP, ih _ h2, (recordShot_fields ss n t h).2.1]
    rfl

theorem recordShotsP_first (l : List (Nat × ℚ)) : ∀ ss : SessionState,
    ss.active = true →
    (recordShotsP ss l).first_shot =
      (if ss.shots = [] then headD ss.first_shot (l.map Prod.snd)
       else ss.first_shot) := by
  induction l with
  | nil =>
    intro ss _
    simp only [recordShotsP, List.map_nil, headD]
    split <;> rfl
  | cons p rest ih =>
    intro ss h
    obtain ⟨n, t⟩ := p
    have h2 : (recordShot ss n t).active = true := by
      rw [recordShot_active_eq]; exact h
    have hsh2 : (recordShot ss n t).shots ≠ [] := by
      rw [(recordShot_fields ss n t h).1]; simp
    rw [recordShotsP, ih _ h2, if_neg hsh2, (recordShot_fields ss n t h).2.2.1]
    by_cases hs : ss.shots = []
    · rw [if_pos hs, if_pos hs]
      simp [headD]
    · rw [if_neg hs, if_neg hs]

theorem recordShotsP_best (l : List (Nat × ℚ)) : ∀ ss : SessionState,
    ss.active = true → ss.shots ≠ [] →
    List.Chain' (· < ·) (ss.shots.map Shot.time ++ l.map Prod.snd) →
    ss.best_split = minOr0 (diffs (ss.shots.map Shot.time)) →
    (recordShotsP ss l).best_split =
      minOr0 (diffs (ss.shots.map Shot.time ++ l.map Prod.snd)) := by
  induction l with
  | nil =>
    intro ss _ _ _ hbest
    simpa [recordShotsP] using hbest
  | cons p rest ih =>
    intro ss hact hne hchain hbest
    obtain ⟨n, t⟩ := p
    simp only [List.map_cons] at hchain ⊢
    have hf := recordShot_fields ss n t hact
    have hUne : ss.shots.map Shot.time ≠ [] := by simpa using hne
    have hcUt : List.Chain' (· < ·) (ss.shots.map Shot.time ++ [t]) := by
      have hassoc : ss.shots.map Shot.time ++ t :: rest.map Prod.snd =
          (ss.shots.map Shot.time ++ [t]) ++ rest.map Prod.snd := by simp
      rw [hassoc] at hchain
      exact (List.chain'_append.mp hchain).1
    have hkey : (recordShot ss n t).best_split =
        minOr0 (diffs (ss.shots.map Shot.time ++ [t])) := by
      rw [hf.2.2.2, if_neg hne, diffs_append_last _ t hUne]
      by_cases hd : diffs (ss.shots.map Shot.time) = []
      · rw [hbest, hd]
        simp [minOr0]
      · have hpos : 0 < minOr0 (diffs (ss.shots.map Shot.time)) := by
          apply minOr0_pos _ _ hd
          intro x hx
          have hcU : List.Chain' (· < ·) (ss.shots.map Shot.time) :=
            (List.chain'_append.mp hcUt).1
          exact diffs_pos_of_chain _ hcU x hx
        rw [minOr0_append_last _ _ hd, hbest]
        have hbne : minOr0 (diffs (ss.shots.map Shot.time)) ≠ 0 := ne_of_gt hpos
        by_cases hlt : t - lastD 0 (ss.shots.map Shot.time) <
            minOr0 (diffs (ss.shots.map Shot.time))
        · rw [if_pos (Or.inr hlt)]
          exact (min_eq_right (le_of_lt hlt)).symm
        · rw [if_neg (not_or.mpr ⟨hbne, hlt⟩)]
          exact (min_eq_left (le_of_not_lt hlt)).symm
    have hact2 : (recordShot ss n t).active = true := by
      rw [recordShot_active_eq]; exact hact
    have hsh2 : (recordShot ss n t).shots ≠ [] := by rw [hf.1]; simp
    have hmap2 : (recordShot ss n t).shots.map Shot.time =
        ss.shots.map Shot.time ++ [t] := by
      rw [hf.1]; simp
    have hchain2 : List.Chain' (· < ·)
        ((recordShot ss n t).shots.map Shot.time ++ rest.map Prod.snd) := by
      rw [hmap2]
      have hassoc : (ss.shots.map Shot.time ++ [t]) ++ rest.map Prod.snd =
          ss.shots.map Shot.time ++ t :: rest.map Prod.snd := by simp
      rw [hassoc]
      exact hchain
    have hbest2 : (recordShot ss n t).best_split =
        minOr0 (diffs ((recordShot ss n t).shots.map Shot.time)) := by
      rw [hmap2]; exact hkey
    rw [recordShotsP, ih _ hact2 hsh2 hchain2 hbest2, hmap2]
    congr 1
    simp

/-! ## Emitted splits and the run lemma for shot sequences -/

theorem expectedSplits_some (l : List ℚ) : ∀ a : ℚ,
    expectedSplits (some a) l = (diffs (a :: l)).map some := by
  induction l with
  | nil => intro a; rfl
  | cons t rest ih =>
    intro a
    simp only [expectedSplits, diffs, List.map_cons, ih]
    rfl

theorem expectedSplits_none (l : List ℚ) : expectedSplits none l = expSplits l := by
  cases l with
  | nil => rfl
  | cons t rest =>
    simp only [expectedSplits, expSplits]
    rw [expectedSplits_some]
    rfl

theorem shotStep_proj (w : World) (i m : Nat) :
    (shotStep w i m).1.session_state = recordShot w.session_state (i + 1) ((m : ℚ) / 1000) ∧
    (shotStep w i m).1.dm.last_shot_time = some ((m : ℚ) / 1000) ∧
    (shotStep w i m).2.split = w.dm.last_shot_time.map (fun t => (m : ℚ) / 1000 - t) ∧
    (shotStep w i m).1.last_session_state = w.last_session_state := by
  unfold shotStep
  dsimp only
  cases hc : w.dm.csv_file <;> simp [hc]

theorem handle_event_shot (now : Nat) (w : World) (p : Bytes) (i m : Nat)
    (h : decodesShot p i m) :
    handle_event now w p = some ((shotStep w i m).1, [(shotStep w i m).2]) := by
  obtain ⟨hne, h1, h16, h32⟩ := h
  simp [handle_event, decode_event, if_neg hne, h1, h16, h32, EVENT_TYPES]

/-- Running a list of decodable `SHOT_DETECTED` payloads from any state with
an active session: the retained session state is the ledger fold of the
decoded (number, time) pairs, `last_shot_time` tracks the last decoded time,
and the broadcast split fields follow `last_shot_time`. -/
theorem runEvents_shots (now : Nat) (ps : List Bytes) (L : List (Nat × Nat))
    (hdec : List.Forall₂ (fun p im => decodesShot p im.1 im.2) ps L) :
    ∀ w : World, w.session_state.active = true →
    ∃ W msgs, runEvents now w ps = some (W, msgs) ∧
      W.session_state = recordShotsP w.session_state
        (L.map (fun im => (im.1 + 1, qms im.2))) ∧
      W.dm.last_shot_time = lastOr w.dm.last_shot_time (L.map (fun im => qms im.2)) ∧
      msgs.map Msg.split = expectedSplits w.dm.last_shot_time
        (L.map (fun im => qms im.2)) := by
  induction hdec with
  | nil =>
    intro w _
    exact ⟨w, [], rfl, rfl, rfl, rfl⟩
  | @cons p im ps2 L2 hpim hrest ih =>
    intro w hact
    have hrun1 := handle_event_shot now w p im.1 im.2 hpim
    have hproj := shotStep_proj w im.1 im.2
    have hact2 : (shotStep w im.1 im.2).1.session_state.active = true := by
      rw [hproj.1, recordShot_active_eq]
      exact hact
    obtain ⟨W, msgs, hrun, hsess, hlastW, hmsgs⟩ := ih _ hact2
    refine ⟨W, (shotStep w im.1 im.2).2 :: msgs, ?_, ?_, ?_, ?_⟩
    · simp only [runEvents, hrun1, hrun]
      rfl
    · rw [hsess, hproj.1]
      simp only [List.map_cons, recordShotsP, qms]
    · rw [hlastW, hproj.2.1]
      simp only [List.map_cons, lastOr, qms]
    · simp only [List.map_cons]
      rw [hproj.2.2.1, hmsgs, hproj.2.1]
      simp only [expectedSplits, qms]

/-! ## C5: split/first/total bookkeeping for every shot of a session -/

/-- C5: starting from a freshly started session (active, no shots, no
previous shot time), running any sequence of decodable `SHOT_DETECTED`
payloads gives, after every prefix of `k` shots: broadcast split fields that
are null for the first shot and `time[i] - time[i-1]` for each later shot;
`first_shot` set on the first shot only (it stays equal to the first shot's
time); and `total_time` always equal to the most recent shot's time. -/
theorem shot_split_first_total (now : Nat) (w : World) (ps : List Bytes)
    (L : List (Nat × Nat))
    (hdec : List.Forall₂ (fun p im => decodesShot p im.1 im.2) ps L)
    (hact : w.session_state.active = true)
    (hsh : w.session_state.shots = [])
    (hlast : w.dm.last_shot_time = none) :
    ∀ k, (runEvents now w (ps.take k)).map
        (fun r => (r.2.map Msg.split, r.1.session_state.first_shot,
                   r.1.session_state.total_time)) =
      some (expSplits ((L.take k).map (fun im => qms im.2)),
            headD w.session_state.first_shot ((L.take k).map (fun im => qms im.2)),
            lastD w.session_state.total_time ((L.take k).map (fun im => qms im.2))) := by
  intro k
  have hdk := List.forall₂_take k hdec
  obtain ⟨W, msgs, hrun, hsess, hlastW, hmsgs⟩ := runEvents_shots now _ _ hdk w hact
  rw [hrun]
  have hT : ((L.take k).map (fun im => (im.1 + 1, qms im.2))).map Prod.snd =
      (L.take k).map (fun im => qms im.2) := by
    rw [List.map_map]
    rfl
  have h1 : msgs.map Msg.split = expSplits ((L.take k).map (fun im => qms im.2)) := by
    rw [hmsgs, hlast, expectedSplits_none]
  have h2 : W.session_state.first_shot =
      headD w.session_state.first_shot ((L.take k).map (fun im => qms im.2)) := by
    rw [hsess, recordShotsP_first _ _ hact, if_pos hsh, hT]
  have h3 : W.session_state.total_time =
      lastD w.session_state.total_time ((L.take k).map (fun im => qms im.2)) := by
    rw [hsess, recordShotsP_total _ _ hact, hT]
  simp [h1, h2, h3]

/-- C5 witness: session started (id 5), two shots at 500 ms and 800 ms. -/
theorem shot_split_first_total_witness :
    (runEvents 7 (startStep 7 initWorld 5).1
        ([[0, 4, 0, 0, 0, 0, 0, 0, 0, 0, 1, 244],
          [0, 4, 0, 0, 0, 0, 0, 1, 0, 0, 3, 32]].take 2)).map
        (fun r => (r.2.map Msg.split, r.1.session_state.first_shot,
                   r.1.session_state.total_time)) =
      some (expSplits ((([((0 : Nat), (500 : Nat)), (1, 800)].take 2)).map
              (fun im => qms im.2)),
            headD (startStep 7 initWorld 5).1.session_state.first_shot
              ((([((0 : Nat), (500 : Nat)), (1, 800)].take 2)).map (fun im => qms im.2)),
            lastD (startStep 7 initWorld 5).1.session_state.total_time
              ((([((0 : Nat), (500 : Nat)), (1, 800)].take 2)).map (fun im => qms im.2))) :=
  shot_split_first_total 7 (startStep 7 initWorld 5).1
    [[0, 4, 0, 0, 0, 0, 0, 0, 0, 0, 1, 244], [0, 4, 0, 0, 0, 0, 0, 1, 0, 0, 3, 32]]
    [((0 : Nat), (500 : Nat)), (1, 800)]
    (.cons (by decide) (.cons (by decide) .nil)) rfl rfl rfl 2

/-! ## C1: what best_split actually computes -/

theorem spec_best_split_of_chain (ts : List ℚ) (h : List.Chain' (· < ·) ts) :
    spec_best_split ts = minOr0 (diffs ts) := by
  unfold spec_best_split
  congr 1
  apply List.filter_eq_self.mpr
  intro a ha
  simpa using diffs_pos_of_chain ts h a ha

theorem recordShotsP_best_fresh (l : List (Nat × ℚ)) (ss : SessionState)
    (hact : ss.active = true) (hsh : ss.shots = []) (hbest : ss.best_split = 0)
    (hinc : List.Chain' (· < ·) (l.map Prod.snd)) :
    (recordShotsP ss l).best_split = minOr0 (diffs (l.map Prod.snd)) := by
  cases l with
  | nil => simpa [recordShotsP, diffs, minOr0] using hbest
  | cons p rest =>
    obtain ⟨n, t⟩ := p
    simp only [List.map_cons] at hinc ⊢
    have hf := recordShot_fields ss n t hact
    have hact2 : (recordShot ss n t).active = true := by
      rw [recordShot_active_eq]; exact hact
    have hsh2 : (recordShot ss n t).shots = [{ num := n, time := t }] := by
      rw [hf.1, hsh]
      rfl
    have hne2 : (recordShot ss n t).shots ≠ [] := by rw [hsh2]; simp
    have hmap2 : (recordShot ss n t).shots.map Shot.time = [t] := by
      rw [hsh2]
      rfl
    have hbest2 : (recordShot ss n t).best_split =
        minOr0 (diffs ((recordShot ss n t).shots.map Shot.time)) := by
      rw [hf.2.2.2, if_pos hsh, hbest, hmap2]
      rfl
    have hchain2 : List.Chain' (· < ·)
        ((recordShot ss n t).shots.map Shot.time ++ rest.map Prod.snd) := by
      rw [hmap2]
      simpa using hinc
    rw [recordShotsP, recordShotsP_best rest _ hact2 hne2 hchain2 hbest2, hmap2]
    congr 1

/-- C1, amended: starting from a freshly started session and running any
sequence of decodable `SHOT_DETECTED` payloads whose decoded times are
strictly increasing, after every prefix of `k` shots the retained
`best_split` equals the claimed value — the minimum over all positive
splits, or 0 when fewer than two shots have occurred — and that claimed
value is monotonically non-increasing along prefixes once it is nonzero.
(Without the strictly-increasing proviso the code stores a zero or negative
split: see the counterexample.) -/
theorem best_split_of_increasing_times (now : Nat) (w : World) (ps : List Bytes)
    (L : List (Nat × Nat))
    (hdec : List.Forall₂ (fun p im => decodesShot p im.1 im.2) ps L)
    (hact : w.session_state.active = true)
    (hsh : w.session_state.shots = [])
    (hbest : w.session_state.best_split = 0)
    (hinc : List.Chain' (· < ·) (L.map (fun im => qms im.2))) :
    (∀ k, (runEvents now w (ps.take k)).map (fun r => r.1.session_state.best_split) =
        some (spec_best_split ((L.take k).map (fun im => qms im.2)))) ∧
    (∀ j k2, j ≤ k2 →
      spec_best_split ((L.take j).map (fun im => qms im.2)) ≠ 0 →
      spec_best_split ((L.take k2).map (fun im => qms im.2)) ≤
        spec_best_split ((L.take j).map (fun im => qms im.2))) := by
  constructor
  · intro k
    have hdk := List.forall₂_take k hdec
    obtain ⟨W, msgs, hrun, hsess, _, _⟩ := runEvents_shots now _ _ hdk w hact
    rw [hrun]
    have hTk : List.Chain' (· < ·) ((L.take k).map (fun im => qms im.2)) := by
      rw [List.map_take]
      exact chain'_take_of _ hinc k
    have hpairs : ((L.take k).map (fun im => (im.1 + 1, qms im.2))).map Prod.snd =
        (L.take k).map (fun im => qms im.2) := by
      rw [List.map_map]
      rfl
    have hb : W.session_state.best_split =
        minOr0 (diffs ((L.take k).map (fun im => qms im.2))) := by
      rw [hsess, recordShotsP_best_fresh _ _ hact hsh hbest (by rw [hpairs]; exact hTk),
        hpairs]
    rw [spec_best_split_of_chain _ hTk]
    simp [hb]
  · intro j k2 hjk hne
    rw [List.map_take] at hne ⊢
    rw [List.map_take]
    have hcj := chain'_take_of _ hinc j
    have hck := chain'_take_of _ hinc k2
    rw [spec_best_split_of_chain _ hcj, diffs_take] at hne
    rw [spec_best_split_of_chain _ hck, spec_best_split_of_chain _ hcj,
      diffs_take, diffs_take]
    have hnonempty : (diffs (L.map (fun im => qms im.2))).take (j - 1) ≠ [] := by
      intro hcon
      rw [hcon] at hne
      exact hne rfl
    exact minOr0_take_mono _ _ _ (by omega) hnonempty

/-- C1 witness: two shots at 500 ms and 800 ms; after both, `best_split`
equals the claimed minimum over positive splits. -/
theorem best_split_of_increasing_times_witness :
    (runEvents 7 (startStep 7 initWorld 5).1
        ([[0, 4, 0, 0, 0, 0, 0, 0, 0, 0, 1, 244],
          [0, 4, 0, 0, 0, 0, 0, 1, 0, 0, 3, 32]].take 2)).map
        (fun r => r.1.session_state.best_split) =
      some (spec_best_split ((([((0 : Nat), (500 : Nat)), (1, 800)].take 2)).map
        (fun im => qms im.2))) :=
  (best_split_of_increasing_times 7 (startStep 7 initWorld 5).1
    [[0, 4, 0, 0, 0, 0, 0, 0, 0, 0, 1, 244], [0, 4, 0, 0, 0, 0, 0, 1, 0, 0, 3, 32]]
    [((0 : Nat), (500 : Nat)), (1, 800)]
    (.cons (by decide) (.cons (by decide) .nil)) rfl rfl rfl
    (by
      simp only [List.map_cons, List.map_nil]
      refine List.chain'_cons.mpr ⟨by norm_num [qms], List.chain'_singleton _⟩)).1 2

/-- C1, counterexample: session started, a shot at 2000 ms, then a shot at
1000 ms.  The code stores `best_split = -1`, while the claim says the value
is the minimum over all positive splits seen so far — here none, so 0.0. -/
theorem best_split_negative_counterexample :
    (runEvents 5 initWorld
        [[0, 0, 0, 0, 0, 7],
         [0, 4, 0, 0, 0, 0, 0, 0, 0, 0, 7, 208],
         [0, 4, 0, 0, 0, 0, 0, 1, 0, 0, 3, 232]]).map
        (fun r => r.1.session_state.best_split) = some (-1 : ℚ) ∧
    spec_best_split [qms 2000, qms 1000] = 0 ∧ ((-1 : ℚ) ≠ 0) := by
  with_unfolding_all decide
